import Mathlib

/-!
Shallow embedding of the completion/streak/balance ledger core of the
family-chores service (src/family-chores/src/models/Balance.js,
src/family-chores/src/models/Completion.js,
src/family-chores/src/config/milestones.js,
src/family-chores/src/routes/dashboard.js).

Conventions of the embedding:
* Monetary amounts are exact fixed-point currency, represented in integer
  cents (`ℤ`): the source stores decimal dollar amounts (e.g. 0.50, 2.50)
  in a `number`; scaling by 100 preserves every sum, sign and comparison
  the code performs.  Milestone bonuses 1.00/2.50/5.00/10.00/20.00 dollars
  become 100/250/500/1000/2000 cents.
* Timestamps (`completedAt`, `now`) are milliseconds (`ℤ`), calendar days
  (`completionDate`, `today`) are day numbers (`ℤ`), matching the
  `YYYY-MM-DD` strings the source compares and subtracts (both sides are
  parsed at UTC midnight, so date differences are whole days).
* The SQLite store is a record of tables; `randomUUID()` results and the
  current clock are passed in as explicit parameters.
* Code that throws returns `Except`, paired with the post-state so that a
  mutation performed before a throw (e.g. the lazily created balance row
  inside `Balance.deduct`) is kept, exactly as in the source, where each
  SQL statement commits on its own.
* Notification rows are modelled as `(userId, type)` pairs; the message
  text (string formatting only) is not modelled.
-/

/-- Transaction `type` column: earned | spent | adjustment | payout | bonus. -/
inductive TxnKind
  | earned
  | spent
  | adjustment
  | payout
  | bonus
deriving DecidableEq

/-- A row of `balance_transactions` (`id`/`created_at` are not needed by any claim). -/
structure Txn where
  userId : String
  amount : ℤ
  kind : TxnKind
  description : String
deriving DecidableEq

/-- A row of `completions`. -/
structure CompletionRec where
  id : String
  taskId : String
  userId : String
  completedAt : ℤ
  completionDate : ℤ
deriving DecidableEq

/-- A row of `streaks` for one `(user_id, routine_id)` key. -/
structure StreakRec where
  currentCount : ℕ
  bestCount : ℕ
  lastCompletionDate : Option ℤ
deriving DecidableEq

/-- The part of a `tasks` row the ledger core reads. -/
structure TaskRec where
  householdId : String
  name : String
  dollarValue : ℤ
deriving DecidableEq

/-- The SQLite database: balances, balance_transactions, completions,
streaks, tasks, routine_tasks, routines (name only), notifications. -/
structure Store where
  balances : String → Option ℤ
  transactions : List Txn
  completions : List CompletionRec
  streaks : String → String → Option StreakRec
  tasks : String → Option TaskRec
  routineTasks : List (String × String)
  routines : String → Option String
  notifs : List (String × String)

/-- A database with no rows at all. -/
def emptyStore : Store where
  balances := fun _ => none
  transactions := []
  completions := []
  streaks := fun _ _ => none
  tasks := fun _ => none
  routineTasks := []
  routines := fun _ => none
  notifs := []

/-- Errors thrown by the Balance model. -/
inductive LedgerError
  | invalidAmount
  | invalidKind
  | insufficientBalance
deriving DecidableEq

namespace Balance

/-- The `INSERT INTO balances ... current_balance = 0` performed when no
row exists for the user (`Balance.get`, and the same block in `Balance.add`). -/
def ensure (s : Store) (u : String) : Store :=
  match s.balances u with
  | some _ => s
  | none => { s with balances := fun v => if v = u then some 0 else s.balances v }

/-- `Balance.get`: creates a zero balance row if absent, returns the balance. -/
def get (s : Store) (u : String) : ℤ × Store :=
  let s1 := ensure s u
  ((s1.balances u).getD 0, s1)

/-- `UPDATE balances SET current_balance = current_balance + d WHERE user_id = u`:
a no-op when no row exists for `u` (SQLite updates zero rows). -/
def applyDelta (s : Store) (u : String) (d : ℤ) : Store :=
  { s with balances := fun v => if v = u then (s.balances v).map (fun b => b + d) else s.balances v }

/-- `INSERT INTO balance_transactions ...`. -/
def appendTxn (s : Store) (t : Txn) : Store :=
  { s with transactions := s.transactions ++ [t] }

/-- Transaction kinds `Balance.add` accepts. -/
def creditKinds : List TxnKind := [.earned, .adjustment, .bonus]

/-- Transaction kinds `Balance.deduct` accepts. -/
def debitKinds : List TxnKind := [.spent, .payout, .adjustment]

/-- `Balance.add(userId, amount, type, description)`. -/
def add (s : Store) (u : String) (amount : ℤ) (kind : TxnKind) (desc : String) :
    Except LedgerError Txn × Store :=
  if amount ≤ 0 then (.error .invalidAmount, s)
  else if kind ∉ creditKinds then (.error .invalidKind, s)
  else
    let s1 := ensure s u
    let s2 := applyDelta s1 u amount
    let t : Txn := ⟨u, amount, kind, desc⟩
    (.ok t, appendTxn s2 t)

/-- `Balance.deduct(userId, amount, type, description)`.  Note that the
balance check goes through `Balance.get`, which inserts a zero balance row
when none exists, and that row persists even when the deduct then throws
`Insufficient balance`. -/
def deduct (s : Store) (u : String) (amount : ℤ) (kind : TxnKind) (desc : String) :
    Except LedgerError Txn × Store :=
  if amount ≤ 0 then (.error .invalidAmount, s)
  else if kind ∉ debitKinds then (.error .invalidKind, s)
  else
    let p := get s u
    if p.1 < amount then (.error .insufficientBalance, p.2)
    else
      let s2 := applyDelta p.2 u (-amount)
      let t : Txn := ⟨u, -amount, kind, desc⟩
      (.ok t, appendTxn s2 t)

/-- `Balance.reverse(userId, amount, description)`: no validation and no
balance check; subtracts `amount` if positive, adds `|amount|` otherwise
(an UPDATE that matches zero rows when the account is missing), records
an `adjustment` transaction of `-amount`, and then reads the balance back
through `Balance.get` — which lazily creates a zero balance row when the
account is missing. -/
def reverse (s : Store) (u : String) (amount : ℤ) (desc : String) : Txn × Store :=
  let s1 := if 0 < amount then applyDelta s u (-amount) else applyDelta s u |amount|
  let t : Txn := ⟨u, -amount, .adjustment, desc⟩
  (t, (get (appendTxn s1 t) u).2)

end Balance

/-- Sum of the `amount` column over one user's transactions. -/
def txnSum (s : Store) (u : String) : ℤ :=
  ((s.transactions.filter (fun t => t.userId == u)).map (fun t => t.amount)).sum

/-- One call into the Balance model, for reasoning about operation sequences. -/
inductive LedgerOp
  | getBal (u : String)
  | credit (u : String) (amount : ℤ) (kind : TxnKind) (desc : String)
  | debit (u : String) (amount : ℤ) (kind : TxnKind) (desc : String)
  | rev (u : String) (amount : ℤ) (desc : String)

/-- The state reached after one Balance-model call (results discarded). -/
def applyOp (s : Store) : LedgerOp → Store
  | .getBal u => (Balance.get s u).2
  | .credit u a k d => (Balance.add s u a k d).2
  | .debit u a k d => (Balance.deduct s u a k d).2
  | .rev u a d => (Balance.reverse s u a d).2

/-- Run a sequence of Balance-model calls. -/
def runOps (s : Store) : List LedgerOp → Store
  | [] => s
  | op :: rest => runOps (applyOp s op) rest

/-- Whether one operation is safe to run in state `s`: a `reverse` must
find its user's balance row, everything else is unrestricted. -/
def opOk (s : Store) : LedgerOp → Bool
  | .rev u _ _ => (s.balances u).isSome
  | _ => true

/-- Every `reverse` in the sequence executes while its user's balance row
already exists. -/
def goodRun (s : Store) : List LedgerOp → Bool
  | [] => true
  | op :: rest => opOk s op && goodRun (applyOp s op) rest

/-- The per-user ledger invariant: the balance a `GetBalance` would observe
equals the sum of that user's transaction amounts (an absent row counts
as an observed balance of 0). -/
def balInv (s : Store) : Prop :=
  ∀ u, (s.balances u).getD 0 = txnSum s u

/-- A milestone configuration row (`src/config/milestones.js`), bonus in cents. -/
structure Milestone where
  days : ℕ
  bonus : ℤ
  label : String
deriving DecidableEq

/-- The static `MILESTONES` table: {7, $1.00}, {14, $2.50}, {30, $5.00},
{60, $10.00}, {90, $20.00}. -/
def MILESTONES : List Milestone :=
  [⟨7, 100, "1 Week"⟩, ⟨14, 250, "2 Weeks"⟩, ⟨30, 500, "1 Month"⟩,
   ⟨60, 1000, "2 Months"⟩, ⟨90, 2000, "3 Months"⟩]

/-- `getMilestone(days)`. -/
def getMilestone (days : ℕ) : Option Milestone :=
  MILESTONES.find? (fun m => m.days == days)

/-- `isMilestone(days)`. -/
def isMilestone (days : ℕ) : Bool :=
  MILESTONES.any (fun m => m.days == days)

/-- Errors returned by `Completion.undo`. -/
inductive UndoError
  | notFound
  | windowExpired
deriving DecidableEq

/-- Errors returned by `POST /api/dashboard/complete/:taskId`. -/
inductive CompleteError
  | taskNotFound
  | accessDenied
  | alreadyCompleted
deriving DecidableEq

namespace Completion

/-- `UNDO_WINDOW_MINUTES = 5`. -/
def UNDO_WINDOW_MINUTES : ℤ := 5

/-- `Completion.findById`: first `completions` row with the given id. -/
def findById (s : Store) (id : String) : Option CompletionRec :=
  s.completions.find? (fun c => c.id == id)

/-- `Completion.isCompleted(taskId, userId, date)` (`SELECT ... LIMIT 1`,
here reduced to existence). -/
def isCompleted (s : Store) (taskId userId : String) (date : ℤ) : Bool :=
  s.completions.any (fun c => c.taskId == taskId && c.userId == userId && c.completionDate == date)

/-- Append a `notifications` row (`Notification.create`, message text dropped). -/
def createNotif (s : Store) (userId ntype : String) : Store :=
  { s with notifs := s.notifs ++ [(userId, ntype)] }

/-- `Completion.updateBalance`: credit the task's dollar value as an
`earned` transaction; no-op when the task is missing or has value ≤ 0. -/
def updateBalance (s : Store) (taskId userId : String) : Store :=
  match s.tasks taskId with
  | none => s
  | some t =>
    if t.dollarValue ≤ 0 then s
    else (Balance.add s userId t.dollarValue .earned ("Completed: " ++ t.name)).2

/-- `Completion.createTaskCompletionNotification`: emits a `task_complete`
notification when the task exists. -/
def taskCompletionNotif (s : Store) (taskId userId : String) : Store :=
  match s.tasks taskId with
  | none => s
  | some _ => createNotif s userId "task_complete"

/-- `Completion.create(taskId, userId, date)`: insert the completion row,
then credit the balance, then notify.  `newId` stands for `randomUUID()`
and `now` for the insertion timestamp. -/
def create (s : Store) (taskId userId : String) (date : ℤ) (now : ℤ) (newId : String) :
    CompletionRec × Store :=
  let c : CompletionRec := ⟨newId, taskId, userId, now, date⟩
  let s1 := { s with completions := s.completions ++ [c] }
  let s2 := updateBalance s1 taskId userId
  (c, taskCompletionNotif s2 taskId userId)

/-- `Completion.undo(id)`: refuse when not found or when more than 5
minutes elapsed; otherwise reverse the task's value (if the task still
exists and has positive value) and delete the completion row.  The source
tests `(now - completedAt) / (1000 * 60) > UNDO_WINDOW_MINUTES` in exact
arithmetic; over millisecond timestamps that is equivalent to the integer
comparison used here (division by the positive constant 60000). -/
def undo (s : Store) (id : String) (now : ℤ) : Except UndoError Unit × Store :=
  match findById s id with
  | none => (.error .notFound, s)
  | some c =>
    if 1000 * 60 * UNDO_WINDOW_MINUTES < now - c.completedAt then
      (.error .windowExpired, s)
    else
      let s1 :=
        match s.tasks c.taskId with
        | none => s
        | some t =>
          if 0 < t.dollarValue then
            (Balance.reverse s c.userId t.dollarValue ("Undone: " ++ t.name)).2
          else s
      (.ok (), { s1 with completions := s1.completions.filter (fun c2 => c2.id != id) })

/-- The `INSERT INTO streaks ... (0, 0)` performed by `getStreakData` when
no row exists for `(userId, routineId)`. -/
def ensureStreak (s : Store) (u r : String) : Store :=
  match s.streaks u r with
  | some _ => s
  | none =>
    { s with streaks := fun u2 r2 => if u2 = u ∧ r2 = r then some ⟨0, 0, none⟩ else s.streaks u2 r2 }

/-- `Completion.getStreakData(userId, routineId)`: lazily create, then read. -/
def getStreakData (s : Store) (u r : String) : StreakRec × Store :=
  let s1 := ensureStreak s u r
  ((s1.streaks u r).getD ⟨0, 0, none⟩, s1)

/-- `Completion.updateStreak(userId, routineId, date)`: the live
incremental path.  `daysDiff = date - lastCompletionDate` (both parsed at
UTC midnight in the source, so the floor division there is exact). -/
def updateStreak (s : Store) (u r : String) (date : ℤ) : StreakRec × Store :=
  let p := getStreakData s u r
  let cur := p.1
  let newCount : ℕ :=
    match cur.lastCompletionDate with
    | none => 1
    | some last =>
      let daysDiff := date - last
      if daysDiff = 1 then cur.currentCount + 1
      else if daysDiff = 0 then cur.currentCount
      else 1
  let newBest := max newCount cur.bestCount
  let rec2 : StreakRec := ⟨newCount, newBest, some date⟩
  let s2 :=
    { p.2 with streaks := fun u2 r2 => if u2 = u ∧ r2 = r then some rec2 else p.2.streaks u2 r2 }
  (rec2, s2)

/-- Insert a date into a strictly descending duplicate-free list, keeping
it strictly descending and duplicate-free (the effect of
`SELECT DISTINCT completion_date ... ORDER BY completion_date DESC`). -/
def insertDateDesc (x : ℤ) : List ℤ → List ℤ
  | [] => [x]
  | y :: ys =>
    if x = y then y :: ys
    else if y < x then x :: y :: ys
    else y :: insertDateDesc x ys

/-- Sort a list of dates into strictly descending duplicate-free order. -/
def sortDatesDesc (l : List ℤ) : List ℤ := l.foldr insertDateDesc []

/-- The distinct completion dates of the user's completions on the
routine's tasks, newest first — the row set `calculateStreak` scans. -/
def completionDates (s : Store) (u r : String) : List ℤ :=
  sortDatesDesc
    ((s.completions.filter
        (fun c => c.userId == u && s.routineTasks.any (fun p => p.1 == r && p.2 == c.taskId))).map
      (fun c => c.completionDate))

/-- The scanning loop of `calculateStreak`: `expected` starts at the most
recent date; a matching row extends the run and decrements `expected`; a
row strictly before `expected` breaks the loop; any other row is skipped. -/
def countRun (expected : ℤ) : List ℤ → ℕ
  | [] => 0
  | d :: rest =>
    if d = expected then countRun (expected - 1) rest + 1
    else if d < expected then 0
    else countRun expected rest

/-- `calculateStreak` on an already sorted distinct date list: 0 when the
history is empty or its most recent date is neither today nor yesterday,
else the length of the consecutive run found by the scan. -/
def calcDates (dates : List ℤ) (today : ℤ) : ℕ :=
  match dates with
  | [] => 0
  | most :: _ =>
    if most ≠ today ∧ most ≠ today - 1 then 0
    else countRun most dates

/-- `Completion.calculateStreak(userId, routineId)` (`today` made explicit). -/
def calculateStreak (s : Store) (u r : String) (today : ℤ) : ℕ :=
  calcDates (completionDates s u r) today

/-- The routine name used in milestone descriptions (`'routine'` fallback). -/
def routineName (s : Store) (r : String) : String :=
  (s.routines r).getD "routine"

/-- The description string built by `awardMilestoneBonus`. -/
def milestoneDescription (m : Milestone) (rname : String) : String :=
  "Streak milestone: " ++ m.label ++ " (" ++ toString m.days ++ " days) - " ++ rname

/-- `Completion.awardMilestoneBonus`: credit the bonus as a `bonus`
transaction via `Balance.add`. -/
def awardMilestoneBonus (s : Store) (u : String) (m : Milestone) (r : String) : Store :=
  (Balance.add s u m.bonus .bonus (milestoneDescription m (routineName s r))).2

/-- The value `recalculateStreak` returns. -/
structure RecalcResult where
  previousCount : ℕ
  currentCount : ℕ
  bestCount : ℕ
  lastCompletionDate : Option ℤ
  streakBroken : Bool
  milestone : Option Milestone
deriving DecidableEq

/-- `Completion.recalculateStreak(userId, routineId)`: recompute the
streak from history, persist it (with `MAX(completion_date)` as the new
`last_completion_date`), flag a break when a positive stored count dropped
to 0, and award a milestone bonus when the count strictly increased onto a
configured threshold. -/
def recalculateStreak (s : Store) (u r : String) (today : ℤ) : RecalcResult × Store :=
  let p := getStreakData s u r
  let previousStreak := p.1
  let s1 := p.2
  let newStreak := calculateStreak s1 u r today
  let newBest := max newStreak previousStreak.bestCount
  let lastDate := (completionDates s1 u r).head?
  let s2 :=
    { s1 with streaks := fun u2 r2 =>
        if u2 = u ∧ r2 = r then some ⟨newStreak, newBest, lastDate⟩ else s1.streaks u2 r2 }
  let broken := decide (0 < previousStreak.currentCount) && (newStreak == 0)
  let awarded :=
    if decide (previousStreak.currentCount < newStreak) && isMilestone newStreak then
      getMilestone newStreak
    else none
  let s3 :=
    match awarded with
    | some m => createNotif (awardMilestoneBonus s2 u m r) u "streak_milestone"
    | none => s2
  let s4 := if broken then createNotif s3 u "streak_broken" else s3
  (⟨previousStreak.currentCount, newStreak, newBest, lastDate, broken, awarded⟩, s4)

end Completion

/-- The stored streak count for `(u, r)` (0 when the row is absent, as
`getStreakData` would report). -/
def prevCount (s : Store) (u r : String) : ℕ :=
  ((s.streaks u r).getD ⟨0, 0, none⟩).currentCount

/-- `POST /api/dashboard/complete/:taskId`: 404 when the task is missing,
403 when it belongs to another household, 400 when a completion already
exists for `(taskId, userId, today)`, else insert the completion, credit
the earnings, and read the updated balance back through
`Completion.getBalance` (i.e. `Balance.get`, which lazily creates a zero
balance row — observable only for zero-value tasks, since a credit has
already ensured the row otherwise). -/
def completeTask (s : Store) (taskId userId householdId : String) (today : ℤ) (now : ℤ)
    (newId : String) : Except CompleteError CompletionRec × Store :=
  match s.tasks taskId with
  | none => (.error .taskNotFound, s)
  | some t =>
    if t.householdId ≠ householdId then (.error .accessDenied, s)
    else if Completion.isCompleted s taskId userId today then (.error .alreadyCompleted, s)
    else
      let p := Completion.create s taskId userId today now newId
      (.ok p.1, (Balance.get p.2 userId).2)

deriving instance DecidableEq for Except

namespace Balance

lemma ensure_transactions (s : Store) (u : String) : (ensure s u).transactions = s.transactions := by
  unfold ensure
  cases s.balances u <;> rfl

lemma ensure_completions (s : Store) (u : String) : (ensure s u).completions = s.completions := by
  unfold ensure
  cases s.balances u <;> rfl

lemma ensure_streaks (s : Store) (u : String) : (ensure s u).streaks = s.streaks := by
  unfold ensure
  cases s.balances u <;> rfl

lemma ensure_tasks (s : Store) (u : String) : (ensure s u).tasks = s.tasks := by
  unfold ensure
  cases s.balances u <;> rfl

lemma ensure_routineTasks (s : Store) (u : String) : (ensure s u).routineTasks = s.routineTasks := by
  unfold ensure
  cases s.balances u <;> rfl

lemma ensure_notifs (s : Store) (u : String) : (ensure s u).notifs = s.notifs := by
  unfold ensure
  cases s.balances u <;> rfl

lemma ensure_balances_self (s : Store) (u : String) :
    (ensure s u).balances u = some ((s.balances u).getD 0) := by
  unfold ensure
  cases h : s.balances u <;> simp [h]

lemma ensure_balances_other (s : Store) (u v : String) (hv : v ≠ u) :
    (ensure s u).balances v = s.balances v := by
  unfold ensure
  cases h : s.balances u <;> simp [hv]

lemma applyDelta_balances_self (s : Store) (u : String) (d : ℤ) :
    (applyDelta s u d).balances u = (s.balances u).map (fun b => b + d) := by
  simp [applyDelta]

lemma applyDelta_balances_other (s : Store) (u v : String) (d : ℤ) (hv : v ≠ u) :
    (applyDelta s u d).balances v = s.balances v := by
  simp [applyDelta, hv]

lemma applyDelta_transactions (s : Store) (u : String) (d : ℤ) :
    (applyDelta s u d).transactions = s.transactions := rfl

lemma appendTxn_balances (s : Store) (t : Txn) : (appendTxn s t).balances = s.balances := rfl

lemma add_pos (s : Store) (u : String) (a : ℤ) (k : TxnKind) (d : String)
    (ha : 0 < a) (hk : k ∈ creditKinds) :
    add s u a k d =
      (.ok ⟨u, a, k, d⟩, appendTxn (applyDelta (ensure s u) u a) ⟨u, a, k, d⟩) := by
  unfold add
  rw [if_neg (not_le.mpr ha), if_neg (not_not_intro hk)]

lemma ensure_of_isSome (s : Store) (u : String) (h : (s.balances u).isSome = true) :
    ensure s u = s := by
  unfold ensure
  cases hb : s.balances u
  · rw [hb] at h
    simp at h
  · rfl

lemma reverse_eq (s : Store) (u : String) (a : ℤ) (d : String) :
    reverse s u a d =
      (⟨u, -a, .adjustment, d⟩,
       ensure (appendTxn (applyDelta s u (-a)) ⟨u, -a, .adjustment, d⟩) u) := by
  unfold reverse
  rcases lt_or_le 0 a with h | h
  · rw [if_pos h]
    rfl
  · rw [if_neg (not_lt.mpr h), abs_of_nonpos h]
    rfl

end Balance

lemma txnSum_congr (s1 s2 : Store) (u : String) (h : s1.transactions = s2.transactions) :
    txnSum s1 u = txnSum s2 u := by
  unfold txnSum
  rw [h]

lemma txnSum_appendTxn (s : Store) (t : Txn) (u : String) :
    txnSum (Balance.appendTxn s t) u = txnSum s u + if t.userId = u then t.amount else 0 := by
  rcases eq_or_ne t.userId u with h | h <;>
    simp [txnSum, Balance.appendTxn, List.filter_append, h]

lemma balInv_ensure (s : Store) (u : String) (h : balInv s) : balInv (Balance.ensure s u) := by
  intro v
  have ht := txnSum_congr (Balance.ensure s u) s v (Balance.ensure_transactions s u)
  rcases eq_or_ne v u with hv | hv
  · subst hv
    rw [Balance.ensure_balances_self, ht]
    simpa using h v
  · rw [Balance.ensure_balances_other s u v hv, ht]
    exact h v

lemma balInv_credit_step (s : Store) (u : String) (a : ℤ) (k : TxnKind) (d : String)
    (h : balInv s) :
    balInv (Balance.appendTxn (Balance.applyDelta (Balance.ensure s u) u a) ⟨u, a, k, d⟩) := by
  intro v
  rw [txnSum_appendTxn, Balance.appendTxn_balances]
  have ht : txnSum (Balance.applyDelta (Balance.ensure s u) u a) v = txnSum s v := by
    apply txnSum_congr
    rw [Balance.applyDelta_transactions, Balance.ensure_transactions]
  rw [ht]
  rcases eq_or_ne v u with hv | hv
  · subst hv
    rw [Balance.applyDelta_balances_self, Balance.ensure_balances_self]
    simp [h v]
  · rw [Balance.applyDelta_balances_other _ _ _ _ hv, Balance.ensure_balances_other _ _ _ hv]
    simp [Ne.symm hv, h v]

lemma balInv_reverse_step (s : Store) (u : String) (a : ℤ) (d : String)
    (h : balInv s) (hrow : (s.balances u).isSome = true) :
    balInv (Balance.reverse s u a d).2 := by
  rw [Balance.reverse_eq]
  dsimp only
  apply balInv_ensure
  intro v
  rw [txnSum_appendTxn, Balance.appendTxn_balances]
  have ht : txnSum (Balance.applyDelta s u (-a)) v = txnSum s v := by
    apply txnSum_congr
    rw [Balance.applyDelta_transactions]
  rw [ht]
  rcases eq_or_ne v u with hv | hv
  · subst hv
    rw [Balance.applyDelta_balances_self]
    rcases hb : s.balances v with _ | b
    · rw [hb] at hrow
      simp at hrow
    · have hbv := h v
      rw [hb] at hbv
      simp only [Option.getD_some] at hbv
      simp [hbv]
  · rw [Balance.applyDelta_balances_other _ _ _ _ hv]
    simp [Ne.symm hv, h v]

namespace Balance

lemma appendTxn_transactions (s : Store) (t : Txn) :
    (appendTxn s t).transactions = s.transactions ++ [t] := rfl

lemma get_fst (s : Store) (u : String) : (get s u).1 = (s.balances u).getD 0 := by
  show ((ensure s u).balances u).getD 0 = (s.balances u).getD 0
  rw [ensure_balances_self]
  rfl

lemma get_snd (s : Store) (u : String) : (get s u).2 = ensure s u := rfl

lemma deduct_insufficient (s : Store) (u : String) (a : ℤ) (k : TxnKind) (d : String)
    (ha : 0 < a) (hk : k ∈ debitKinds) (hins : (s.balances u).getD 0 < a) :
    deduct s u a k d = (.error .insufficientBalance, ensure s u) := by
  unfold deduct
  rw [if_neg (not_le.mpr ha), if_neg (not_not_intro hk)]
  simp only [get_fst, get_snd]
  rw [if_pos hins]

lemma deduct_ok (s : Store) (u : String) (a : ℤ) (k : TxnKind) (d : String)
    (ha : 0 < a) (hk : k ∈ debitKinds) (hins : ¬ (s.balances u).getD 0 < a) :
    deduct s u a k d =
      (.ok ⟨u, -a, k, d⟩, appendTxn (applyDelta (ensure s u) u (-a)) ⟨u, -a, k, d⟩) := by
  unfold deduct
  rw [if_neg (not_le.mpr ha), if_neg (not_not_intro hk)]
  simp only [get_fst, get_snd]
  rw [if_neg hins]

end Balance

lemma balInv_applyOp (s : Store) (op : LedgerOp) (h : balInv s)
    (hok : opOk s op = true) :
    balInv (applyOp s op) := by
  cases op with
  | getBal u => exact balInv_ensure s u h
  | credit u a k d =>
    show balInv (Balance.add s u a k d).2
    by_cases ha : a ≤ 0
    · simpa [Balance.add, ha] using h
    · by_cases hk : k ∈ Balance.creditKinds
      · rw [Balance.add_pos s u a k d (lt_of_not_le ha) hk]
        exact balInv_credit_step s u a k d h
      · simpa [Balance.add, ha, hk] using h
  | debit u a k d =>
    show balInv (Balance.deduct s u a k d).2
    by_cases ha : a ≤ 0
    · simpa [Balance.deduct, ha] using h
    · by_cases hk : k ∈ Balance.debitKinds
      · by_cases hins : (s.balances u).getD 0 < a
        · rw [Balance.deduct_insufficient s u a k d (lt_of_not_le ha) hk hins]
          exact balInv_ensure s u h
        · rw [Balance.deduct_ok s u a k d (lt_of_not_le ha) hk hins]
          exact balInv_credit_step s u (-a) k d h
      · simpa [Balance.deduct, ha, hk] using h
  | rev u a d =>
    exact balInv_reverse_step s u a d h (by simpa [opOk] using hok)

lemma balInv_runOps (ops : List LedgerOp) (s : Store) (h : balInv s)
    (hgood : goodRun s ops = true) : balInv (runOps s ops) := by
  induction ops generalizing s with
  | nil => simpa [runOps] using h
  | cons op rest ih =>
    rw [goodRun, Bool.and_eq_true] at hgood
    exact ih (applyOp s op) (balInv_applyOp s op h hgood.1) hgood.2

lemma balInv_emptyStore : balInv emptyStore := by
  intro u
  rfl

/-- **C1, corrected.**  The ledger invariant `currentBalance == Σ
transactions.amount` (with a missing balance row observed as 0 by
`Balance.get`) holds after any sequence of `get`/`add`/`deduct`/`reverse`
calls from the empty store, PROVIDED every `reverse` executes while its
user's balance row already exists.  Without that proviso the claim is
false (see the counterexample): `Balance.reverse` updates zero rows when
the account is missing yet still records the adjustment transaction. -/
theorem C1_ledger_invariant (ops : List LedgerOp) (u : String)
    (hgood : goodRun emptyStore ops = true) :
    ((runOps emptyStore ops).balances u).getD 0 = txnSum (runOps emptyStore ops) u :=
  balInv_runOps ops emptyStore balInv_emptyStore hgood u

/-- A run in which the balance row exists before the `reverse`. -/
def opsC1 : List LedgerOp :=
  [.getBal "u", .credit "u" 100 .earned "chore", .rev "u" 100 "undo"]

/-- **C1 witness**: the invariant after a concrete good run. -/
theorem C1_witness :
    goodRun emptyStore opsC1 = true ∧
      ((runOps emptyStore opsC1).balances "u").getD 0 = txnSum (runOps emptyStore opsC1) "u" :=
  ⟨by decide, C1_ledger_invariant opsC1 "u" (by decide)⟩

/-- **C1 counterexample**: a single `Reverse` from the empty store leaves
an observed balance of 0 while the transaction amounts sum to -100, so
the claim as stated (any sequence of Ledger operations) is false. -/
theorem C1_counterexample :
    ((runOps emptyStore [.rev "u" 100 "undo"]).balances "u").getD 0 ≠
      txnSum (runOps emptyStore [.rev "u" 100 "undo"]) "u" := by
  decide

/-- A store whose only row is a zero balance for user `u`. -/
def zeroAcct : Store :=
  { emptyStore with balances := fun v => if v = "u" then some 0 else none }

/-- **C10, corrected.**  `Balance.reverse` is total (no amount
validation, no insufficient-balance check, it cannot fail): for every
store, user and amount — positive, zero, negative, or larger than the
balance — it appends exactly one `adjustment` transaction whose amount is
the negation of the argument, and the resulting stored balance is the old
balance mapped by the same negated delta when the account exists (so an
existing account can be driven below zero, as the concrete conjunct
shows: reversing 500 cents against a $0.00 account yields -500).  But the
claim's "no lazy creation of a missing balance account" is false: the
UPDATE does match zero rows when the account is missing (the monetary
change is silently lost), yet `reverse` then reads the balance back
through `Balance.get`, which inserts a zero row — so a missing account
ends up created at 0, as the `some (... .getD 0)` form states and the
counterexample shows. -/
theorem C10_reverse_total :
    (∀ (s : Store) (u : String) (a : ℤ) (d : String),
        (Balance.reverse s u a d).1 = ⟨u, -a, .adjustment, d⟩ ∧
        (Balance.reverse s u a d).2.transactions = s.transactions ++ [⟨u, -a, .adjustment, d⟩] ∧
        (Balance.reverse s u a d).2.balances u =
          some (((s.balances u).map (fun b => b + -a)).getD 0) ∧
        (Balance.reverse s u a d).2.completions = s.completions) ∧
      (Balance.reverse zeroAcct "u" 500 "undo").2.balances "u" = some (-500) := by
  constructor
  · intro s u a d
    rw [Balance.reverse_eq]
    dsimp only
    refine ⟨rfl, ?_, ?_, ?_⟩
    · rw [Balance.ensure_transactions, Balance.appendTxn_transactions,
        Balance.applyDelta_transactions]
    · rw [Balance.ensure_balances_self, Balance.appendTxn_balances,
        Balance.applyDelta_balances_self]
    · rw [Balance.ensure_completions]
      rfl
  · decide

/-- **C10 counterexample**: reversing 100 cents for a user with no
balance account creates the account (at 0, the lost monetary change
notwithstanding), so "no lazy creation of a missing balance account" is
false as stated. -/
theorem C10_counterexample :
    emptyStore.balances "u" = none ∧
      (Balance.reverse emptyStore "u" 100 "undo").2.balances "u" = some 0 := by
  decide

/-- **C8, corrected.**  `Balance.deduct` with `amount > 0` and a debit
kind: when the observed balance is below the amount it fails with
`insufficientBalance` and leaves the transaction log, completions,
streaks and the observed balance unchanged — but it does NOT leave *all*
state unchanged, because the failing check runs through `Balance.get`,
which lazily inserts a zero balance row (see the counterexample);
otherwise it appends one transaction whose amount is `-amount`, decreases
the balance by exactly `amount`, and the resulting balance is ≥ 0. -/
theorem C8_debit_guard (s : Store) (u : String) (a : ℤ) (k : TxnKind) (d : String)
    (ha : 0 < a) (hk : k ∈ Balance.debitKinds) :
    ((s.balances u).getD 0 < a →
        Balance.deduct s u a k d = (.error .insufficientBalance, Balance.ensure s u) ∧
        (Balance.ensure s u).transactions = s.transactions ∧
        (Balance.ensure s u).completions = s.completions ∧
        (Balance.ensure s u).streaks = s.streaks ∧
        ((Balance.ensure s u).balances u).getD 0 = (s.balances u).getD 0) ∧
      (a ≤ (s.balances u).getD 0 →
        (Balance.deduct s u a k d).1 = .ok ⟨u, -a, k, d⟩ ∧
        (Balance.deduct s u a k d).2.transactions = s.transactions ++ [⟨u, -a, k, d⟩] ∧
        ((Balance.deduct s u a k d).2.balances u).getD 0 = (s.balances u).getD 0 - a ∧
        0 ≤ ((Balance.deduct s u a k d).2.balances u).getD 0) := by
  constructor
  · intro hins
    refine ⟨Balance.deduct_insufficient s u a k d ha hk hins,
      Balance.ensure_transactions s u, Balance.ensure_completions s u,
      Balance.ensure_streaks s u, ?_⟩
    rw [Balance.ensure_balances_self]
    rfl
  · intro hge
    have hins : ¬ (s.balances u).getD 0 < a := not_lt.mpr hge
    rw [Balance.deduct_ok s u a k d ha hk hins]
    refine ⟨rfl, ?_, ?_, ?_⟩
    · show (Balance.appendTxn _ _).transactions = _
      rw [Balance.appendTxn_transactions, Balance.applyDelta_transactions,
        Balance.ensure_transactions]
    · show ((Balance.appendTxn _ _).balances u).getD 0 = _
      rw [Balance.appendTxn_balances, Balance.applyDelta_balances_self,
        Balance.ensure_balances_self]
      simp
      ring
    · show (0:ℤ) ≤ ((Balance.appendTxn _ _).balances u).getD 0
      rw [Balance.appendTxn_balances, Balance.applyDelta_balances_self,
        Balance.ensure_balances_self]
      simp
      omega

/-- **C8 witness**: deducting 500 cents from an empty store fails with
`insufficientBalance` and appends no transaction. -/
theorem C8_witness :
    Balance.deduct emptyStore "u" 500 .spent "toy" =
      (.error .insufficientBalance, Balance.ensure emptyStore "u") ∧
      (Balance.ensure emptyStore "u").transactions = emptyStore.transactions :=
  have h := (C8_debit_guard emptyStore "u" 500 .spent "toy" (by decide) (by decide)).1 (by decide)
  ⟨h.1, h.2.1⟩

/-- **C8 counterexample**: the same failing deduct does change state — it
creates the user's balance row (absent before, present at 0 after), so
"leaves all state unchanged" is false as stated. -/
theorem C8_counterexample :
    (Balance.deduct emptyStore "u" 500 .spent "toy").1 = .error .insufficientBalance ∧
      (Balance.deduct emptyStore "u" 500 .spent "toy").2.balances "u" ≠ emptyStore.balances "u" := by
  decide

/-- **C3, confirmed.**  When a completion already exists for
`(taskId, userId, today)`, `POST /api/dashboard/complete/:taskId` (with
an existing, same-household task) returns the already-completed conflict
error and returns before any mutation: the resulting store is exactly the
input store — balance, transaction log, completions and streaks included. -/
theorem C3_duplicate_complete_conflict (s : Store) (taskId u hh newId : String)
    (t : TaskRec) (today now : ℤ)
    (htask : s.tasks taskId = some t) (hhh : t.householdId = hh)
    (hdone : Completion.isCompleted s taskId u today = true) :
    completeTask s taskId u hh today now newId = (.error .alreadyCompleted, s) := by
  unfold completeTask
  rw [htask]
  simp [hhh, hdone]

/-- A store holding one $0.50 task and one completion of it by `u` on day 12. -/
def storeC3 : Store :=
  { emptyStore with
    tasks := fun id => if id = "t" then some ⟨"h", "Dishes", 50⟩ else none
    completions := [⟨"c0", "t", "u", 0, 12⟩] }

/-- **C3 witness**: a concrete duplicate completion attempt. -/
theorem C3_witness :
    completeTask storeC3 "t" "u" "h" 12 60000 "c9" = (.error .alreadyCompleted, storeC3) :=
  C3_duplicate_complete_conflict storeC3 "t" "u" "h" "c9" ⟨"h", "Dishes", 50⟩ 12 60000
    (by decide) rfl (by decide)

/-- **C9, confirmed.**  `Completion.undo` on an existing completion whose
`completedAt` lies more than 5 minutes before `now` fails with the
undo-window error and returns the store untouched: balance, transaction
log and the completion row are all unchanged. -/
theorem C9_undo_window_expired (s : Store) (cid : String) (now : ℤ) (c : CompletionRec)
    (hfind : Completion.findById s cid = some c)
    (hexp : 1000 * 60 * 5 < now - c.completedAt) :
    Completion.undo s cid now = (.error .windowExpired, s) := by
  unfold Completion.undo
  rw [hfind]
  dsimp only
  have hlt : 1000 * 60 * Completion.UNDO_WINDOW_MINUTES < now - c.completedAt := by
    simp only [Completion.UNDO_WINDOW_MINUTES]
    omega
  rw [if_pos hlt]

/-- A store holding one completion made at time 0 (ms). -/
def storeC9 : Store :=
  { emptyStore with
    tasks := fun id => if id = "t" then some ⟨"h", "Dishes", 50⟩ else none
    completions := [⟨"c1", "t", "u", 0, 12⟩] }

/-- **C9 witness**: undoing 10 minutes after completion fails and changes nothing. -/
theorem C9_witness :
    Completion.undo storeC9 "c1" 600000 = (.error .windowExpired, storeC9) :=
  C9_undo_window_expired storeC9 "c1" 600000 ⟨"c1", "t", "u", 0, 12⟩ (by decide) (by decide)

/-- **C6, confirmed.**  The live streak update: with prior streak row
`prev`, the new count is `prev.currentCount + 1` when the stored last
completion date is exactly the day before `date`, `prev.currentCount`
when it equals `date` (same-day re-trigger is idempotent on the count),
and 1 in every other case (gap, negative gap, or no last date); the
persisted row carries `bestCount = max newCount prev.bestCount` and
`lastCompletionDate = date`. -/
theorem C6_live_streak_update (s : Store) (u r : String) (date : ℤ) (prev : StreakRec)
    (h : s.streaks u r = some prev) :
    (Completion.updateStreak s u r date).1.currentCount =
        (if prev.lastCompletionDate = some (date - 1) then prev.currentCount + 1
         else if prev.lastCompletionDate = some date then prev.currentCount
         else 1) ∧
      (Completion.updateStreak s u r date).1.bestCount =
        max (Completion.updateStreak s u r date).1.currentCount prev.bestCount ∧
      (Completion.updateStreak s u r date).2.streaks u r =
        some ⟨(Completion.updateStreak s u r date).1.currentCount,
              (Completion.updateStreak s u r date).1.bestCount, some date⟩ := by
  have hdata : Completion.getStreakData s u r = (prev, s) := by
    unfold Completion.getStreakData Completion.ensureStreak
    rw [h]
    simp [h]
  unfold Completion.updateStreak
  rw [hdata]
  rcases hlast : prev.lastCompletionDate with _ | last
  · simp [hlast]
  · rcases eq_or_ne last (date - 1) with h1 | h1
    · have hd : date - last = 1 := by omega
      simp [hlast, h1, hd]
    · rcases eq_or_ne last date with h2 | h2
      · have hd1 : ¬ date - last = 1 := by omega
        have hd0 : date - last = 0 := by omega
        simp [hlast, h2, hd1, hd0]
        rw [if_neg (show ¬ date = date - 1 by omega)]
      · have hd1 : ¬ date - last = 1 := by omega
        have hd0 : ¬ date - last = 0 := by omega
        simp [hlast, h1, h2, hd1, hd0]

/-- A store holding a streak row for `(u, r)`: count 3, best 5, last day 9. -/
def storeC6 : Store :=
  { emptyStore with
    streaks := fun u2 r2 => if u2 = "u" ∧ r2 = "r" then some ⟨3, 5, some 9⟩ else none }

/-- **C6 witness**: completing on day 10 (the day after day 9) increments
the count to 4, keeps best 5, and persists the row. -/
theorem C6_witness :
    (Completion.updateStreak storeC6 "u" "r" 10).1.currentCount =
        (if (some (9:ℤ)) = some ((10:ℤ) - 1) then 3 + 1
         else if (some (9:ℤ)) = some (10:ℤ) then 3 else 1) ∧
      (Completion.updateStreak storeC6 "u" "r" 10).1.bestCount =
        max (Completion.updateStreak storeC6 "u" "r" 10).1.currentCount 5 ∧
      (Completion.updateStreak storeC6 "u" "r" 10).2.streaks "u" "r" =
        some ⟨(Completion.updateStreak storeC6 "u" "r" 10).1.currentCount,
              (Completion.updateStreak storeC6 "u" "r" 10).1.bestCount, some 10⟩ :=
  C6_live_streak_update storeC6 "u" "r" 10 ⟨3, 5, some 9⟩ (by decide)

namespace Completion

lemma ensureStreak_completions (s : Store) (u r : String) :
    (ensureStreak s u r).completions = s.completions := by
  unfold ensureStreak
  cases s.streaks u r <;> rfl

lemma ensureStreak_routineTasks (s : Store) (u r : String) :
    (ensureStreak s u r).routineTasks = s.routineTasks := by
  unfold ensureStreak
  cases s.streaks u r <;> rfl

lemma ensureStreak_transactions (s : Store) (u r : String) :
    (ensureStreak s u r).transactions = s.transactions := by
  unfold ensureStreak
  cases s.streaks u r <;> rfl

lemma ensureStreak_routines (s : Store) (u r : String) :
    (ensureStreak s u r).routines = s.routines := by
  unfold ensureStreak
  cases s.streaks u r <;> rfl

lemma ensureStreak_notifs (s : Store) (u r : String) :
    (ensureStreak s u r).notifs = s.notifs := by
  unfold ensureStreak
  cases s.streaks u r <;> rfl

lemma ensureStreak_streaks_self (s : Store) (u r : String) :
    (ensureStreak s u r).streaks u r = some ((s.streaks u r).getD ⟨0, 0, none⟩) := by
  unfold ensureStreak
  cases h : s.streaks u r <;> simp [h]

lemma completionDates_congr (s1 s2 : Store) (u r : String)
    (hc : s1.completions = s2.completions) (hr : s1.routineTasks = s2.routineTasks) :
    completionDates s1 u r = completionDates s2 u r := by
  unfold completionDates
  simp only [hc, hr]

lemma calculateStreak_congr (s1 s2 : Store) (u r : String) (today : ℤ)
    (hc : s1.completions = s2.completions) (hr : s1.routineTasks = s2.routineTasks) :
    calculateStreak s1 u r today = calculateStreak s2 u r today := by
  unfold calculateStreak
  rw [completionDates_congr s1 s2 u r hc hr]

end Completion

namespace Balance

lemma add_snd_completions (s : Store) (u : String) (a : ℤ) (k : TxnKind) (d : String)
    (ha : 0 < a) (hk : k ∈ creditKinds) :
    (add s u a k d).2.completions = s.completions := by
  rw [add_pos s u a k d ha hk]
  show (ensure s u).completions = s.completions
  exact ensure_completions s u

lemma add_snd_routineTasks (s : Store) (u : String) (a : ℤ) (k : TxnKind) (d : String)
    (ha : 0 < a) (hk : k ∈ creditKinds) :
    (add s u a k d).2.routineTasks = s.routineTasks := by
  rw [add_pos s u a k d ha hk]
  show (ensure s u).routineTasks = s.routineTasks
  exact ensure_routineTasks s u

lemma add_snd_streaks (s : Store) (u : String) (a : ℤ) (k : TxnKind) (d : String)
    (ha : 0 < a) (hk : k ∈ creditKinds) :
    (add s u a k d).2.streaks = s.streaks := by
  rw [add_pos s u a k d ha hk]
  show (ensure s u).streaks = s.streaks
  exact ensure_streaks s u

lemma add_snd_notifs (s : Store) (u : String) (a : ℤ) (k : TxnKind) (d : String)
    (ha : 0 < a) (hk : k ∈ creditKinds) :
    (add s u a k d).2.notifs = s.notifs := by
  rw [add_pos s u a k d ha hk]
  show (ensure s u).notifs = s.notifs
  exact ensure_notifs s u

lemma add_snd_transactions (s : Store) (u : String) (a : ℤ) (k : TxnKind) (d : String)
    (ha : 0 < a) (hk : k ∈ creditKinds) :
    (add s u a k d).2.transactions = s.transactions ++ [⟨u, a, k, d⟩] := by
  rw [add_pos s u a k d ha hk]
  show (ensure s u).transactions ++ _ = _
  rw [ensure_transactions]

end Balance

lemma MILESTONES_bonus_pos : ∀ m ∈ MILESTONES, 0 < m.bonus := by decide

lemma getMilestone_bonus_pos (n : ℕ) (m : Milestone) (h : getMilestone n = some m) :
    0 < m.bonus :=
  MILESTONES_bonus_pos m (List.mem_of_find?_eq_some h)

/-- The normal form of `recalculateStreak`: result and state expressed
over the input store rather than the lazily-ensured one. -/
lemma recalc_eq (s : Store) (u r : String) (today : ℤ) :
    Completion.recalculateStreak s u r today =
      (let pv := (s.streaks u r).getD ⟨0, 0, none⟩
       let nw := Completion.calculateStreak s u r today
       let newBest := max nw pv.bestCount
       let lastDate := (Completion.completionDates s u r).head?
       let sE := Completion.ensureStreak s u r
       let s2 := { sE with streaks := fun u2 r2 =>
          if u2 = u ∧ r2 = r then some ⟨nw, newBest, lastDate⟩ else sE.streaks u2 r2 }
       let broken := decide (0 < pv.currentCount) && (nw == 0)
       let awarded :=
         if decide (pv.currentCount < nw) && isMilestone nw then getMilestone nw else none
       let s3 :=
         match awarded with
         | some m => Completion.createNotif (Completion.awardMilestoneBonus s2 u m r) u "streak_milestone"
         | none => s2
       let s4 := if broken then Completion.createNotif s3 u "streak_broken" else s3
       (⟨pv.currentCount, nw, newBest, lastDate, broken, awarded⟩, s4)) := by
  unfold Completion.recalculateStreak Completion.getStreakData
  simp only [Completion.calculateStreak_congr (Completion.ensureStreak s u r) s u r today
      (Completion.ensureStreak_completions s u r) (Completion.ensureStreak_routineTasks s u r),
    Completion.completionDates_congr (Completion.ensureStreak s u r) s u r
      (Completion.ensureStreak_completions s u r) (Completion.ensureStreak_routineTasks s u r),
    Completion.ensureStreak_streaks_self, Option.getD_some]

lemma recalc_fst (s : Store) (u r : String) (today : ℤ) :
    (Completion.recalculateStreak s u r today).1 =
      ⟨prevCount s u r, Completion.calculateStreak s u r today,
       max (Completion.calculateStreak s u r today) ((s.streaks u r).getD ⟨0, 0, none⟩).bestCount,
       (Completion.completionDates s u r).head?,
       decide (0 < prevCount s u r) && (Completion.calculateStreak s u r today == 0),
       if decide (prevCount s u r < Completion.calculateStreak s u r today) &&
           isMilestone (Completion.calculateStreak s u r today) then
         getMilestone (Completion.calculateStreak s u r today)
       else none⟩ := by
  rw [recalc_eq]
  rfl

lemma recalc_snd_completions (s : Store) (u r : String) (today : ℤ) :
    (Completion.recalculateStreak s u r today).2.completions = s.completions := by
  rw [recalc_eq]
  dsimp only
  rcases haw : (if decide (((s.streaks u r).getD ⟨0, 0, none⟩).currentCount <
      Completion.calculateStreak s u r today) &&
      isMilestone (Completion.calculateStreak s u r today) then
      getMilestone (Completion.calculateStreak s u r today) else none) with _ | m
  · split
    · exact Completion.ensureStreak_completions s u r
    · exact Completion.ensureStreak_completions s u r
  · have hm : getMilestone (Completion.calculateStreak s u r today) = some m := by
      by_cases hc : (decide (((s.streaks u r).getD ⟨0, 0, none⟩).currentCount <
          Completion.calculateStreak s u r today) &&
          isMilestone (Completion.calculateStreak s u r today)) = true
      · rwa [if_pos hc] at haw
      · rw [if_neg hc] at haw
        cases haw
    have hb := getMilestone_bonus_pos _ m hm
    split
    · show (Balance.add _ u m.bonus .bonus _).2.completions = s.completions
      rw [Balance.add_snd_completions _ u m.bonus .bonus _ hb (by decide)]
      exact Completion.ensureStreak_completions s u r
    · show (Balance.add _ u m.bonus .bonus _).2.completions = s.completions
      rw [Balance.add_snd_completions _ u m.bonus .bonus _ hb (by decide)]
      exact Completion.ensureStreak_completions s u r

lemma recalc_snd_routineTasks (s : Store) (u r : String) (today : ℤ) :
    (Completion.recalculateStreak s u r today).2.routineTasks = s.routineTasks := by
  rw [recalc_eq]
  dsimp only
  rcases haw : (if decide (((s.streaks u r).getD ⟨0, 0, none⟩).currentCount <
      Completion.calculateStreak s u r today) &&
      isMilestone (Completion.calculateStreak s u r today) then
      getMilestone (Completion.calculateStreak s u r today) else none) with _ | m
  · split
    · exact Completion.ensureStreak_routineTasks s u r
    · exact Completion.ensureStreak_routineTasks s u r
  · have hm : getMilestone (Completion.calculateStreak s u r today) = some m := by
      by_cases hc : (decide (((s.streaks u r).getD ⟨0, 0, none⟩).currentCount <
          Completion.calculateStreak s u r today) &&
          isMilestone (Completion.calculateStreak s u r today)) = true
      · rwa [if_pos hc] at haw
      · rw [if_neg hc] at haw
        cases haw
    have hb := getMilestone_bonus_pos _ m hm
    split
    · show (Balance.add _ u m.bonus .bonus _).2.routineTasks = s.routineTasks
      rw [Balance.add_snd_routineTasks _ u m.bonus .bonus _ hb (by decide)]
      exact Completion.ensureStreak_routineTasks s u r
    · show (Balance.add _ u m.bonus .bonus _).2.routineTasks = s.routineTasks
      rw [Balance.add_snd_routineTasks _ u m.bonus .bonus _ hb (by decide)]
      exact Completion.ensureStreak_routineTasks s u r

lemma recalc_snd_streaks_self (s : Store) (u r : String) (today : ℤ) :
    (Completion.recalculateStreak s u r today).2.streaks u r =
      some ⟨Completion.calculateStreak s u r today,
            max (Completion.calculateStreak s u r today)
              ((s.streaks u r).getD ⟨0, 0, none⟩).bestCount,
            (Completion.completionDates s u r).head?⟩ := by
  rw [recalc_eq]
  dsimp only
  rcases haw : (if decide (((s.streaks u r).getD ⟨0, 0, none⟩).currentCount <
      Completion.calculateStreak s u r today) &&
      isMilestone (Completion.calculateStreak s u r today) then
      getMilestone (Completion.calculateStreak s u r today) else none) with _ | m
  · split
    · simp [Completion.createNotif]
    · simp
  · have hm : getMilestone (Completion.calculateStreak s u r today) = some m := by
      by_cases hc : (decide (((s.streaks u r).getD ⟨0, 0, none⟩).currentCount <
          Completion.calculateStreak s u r today) &&
          isMilestone (Completion.calculateStreak s u r today)) = true
      · rwa [if_pos hc] at haw
      · rw [if_neg hc] at haw
        cases haw
    have hb := getMilestone_bonus_pos _ m hm
    split
    · show (Balance.add _ u m.bonus .bonus _).2.streaks u r = _
      rw [Balance.add_snd_streaks _ u m.bonus .bonus _ hb (by decide)]
      simp
    · show (Balance.add _ u m.bonus .bonus _).2.streaks u r = _
      rw [Balance.add_snd_streaks _ u m.bonus .bonus _ hb (by decide)]
      simp

lemma recalc_snd_transactions (s : Store) (u r : String) (today : ℤ) :
    (Completion.recalculateStreak s u r today).2.transactions =
      s.transactions ++
        (match (if decide (((s.streaks u r).getD ⟨0, 0, none⟩).currentCount <
            Completion.calculateStreak s u r today) &&
            isMilestone (Completion.calculateStreak s u r today) then
            getMilestone (Completion.calculateStreak s u r today) else none) with
         | some m =>
           [⟨u, m.bonus, .bonus, Completion.milestoneDescription m (Completion.routineName s r)⟩]
         | none => []) := by
  rw [recalc_eq]
  dsimp only
  rcases haw : (if decide (((s.streaks u r).getD ⟨0, 0, none⟩).currentCount <
      Completion.calculateStreak s u r today) &&
      isMilestone (Completion.calculateStreak s u r today) then
      getMilestone (Completion.calculateStreak s u r today) else none) with _ | m
  · split
    · simpa using Completion.ensureStreak_transactions s u r
    · simpa using Completion.ensureStreak_transactions s u r
  · have hm : getMilestone (Completion.calculateStreak s u r today) = some m := by
      by_cases hc : (decide (((s.streaks u r).getD ⟨0, 0, none⟩).currentCount <
          Completion.calculateStreak s u r today) &&
          isMilestone (Completion.calculateStreak s u r today)) = true
      · rwa [if_pos hc] at haw
      · rw [if_neg hc] at haw
        cases haw
    have hb := getMilestone_bonus_pos _ m hm
    split
    · show (Balance.add _ u m.bonus .bonus _).2.transactions = _
      rw [Balance.add_snd_transactions _ u m.bonus .bonus _ hb (by decide)]
      simp only [Completion.routineName, Completion.ensureStreak_transactions,
        Completion.ensureStreak_routines]
    · show (Balance.add _ u m.bonus .bonus _).2.transactions = _
      rw [Balance.add_snd_transactions _ u m.bonus .bonus _ hb (by decide)]
      simp only [Completion.routineName, Completion.ensureStreak_transactions,
        Completion.ensureStreak_routines]

lemma recalc_snd_notifs (s : Store) (u r : String) (today : ℤ) :
    (Completion.recalculateStreak s u r today).2.notifs =
      s.notifs ++
        (match (if decide (((s.streaks u r).getD ⟨0, 0, none⟩).currentCount <
            Completion.calculateStreak s u r today) &&
            isMilestone (Completion.calculateStreak s u r today) then
            getMilestone (Completion.calculateStreak s u r today) else none) with
         | some _ => [(u, "streak_milestone")]
         | none => []) ++
        (if decide (0 < ((s.streaks u r).getD ⟨0, 0, none⟩).currentCount) &&
            (Completion.calculateStreak s u r today == 0) then
          [(u, "streak_broken")]
         else []) := by
  rw [recalc_eq]
  dsimp only
  rcases haw : (if decide (((s.streaks u r).getD ⟨0, 0, none⟩).currentCount <
      Completion.calculateStreak s u r today) &&
      isMilestone (Completion.calculateStreak s u r today) then
      getMilestone (Completion.calculateStreak s u r today) else none) with _ | m
  · split
    · rename_i hbr
      simp [Completion.createNotif, Completion.ensureStreak_notifs, hbr]
    · rename_i hbr
      simp only [Bool.not_eq_true] at hbr
      simp [Completion.createNotif, Completion.ensureStreak_notifs, hbr]
  · have hm : getMilestone (Completion.calculateStreak s u r today) = some m := by
      by_cases hc : (decide (((s.streaks u r).getD ⟨0, 0, none⟩).currentCount <
          Completion.calculateStreak s u r today) &&
          isMilestone (Completion.calculateStreak s u r today)) = true
      · rwa [if_pos hc] at haw
      · rw [if_neg hc] at haw
        cases haw
    have hb := getMilestone_bonus_pos _ m hm
    dsimp only
    split
    · rename_i hbr
      simp only [Completion.createNotif, Completion.awardMilestoneBonus]
      rw [Balance.add_snd_notifs _ u m.bonus .bonus _ hb (by decide)]
      simp [Completion.ensureStreak_notifs, hbr]
    · rename_i hbr
      simp only [Bool.not_eq_true] at hbr
      simp only [Completion.createNotif, Completion.awardMilestoneBonus]
      rw [Balance.add_snd_notifs _ u m.bonus .bonus _ hb (by decide)]
      simp [Completion.ensureStreak_notifs, hbr]

/-- **C5, corrected.**  The recalculation marks `streakBroken` exactly
when the previously stored count was positive AND the newly computed
count is 0 (and then appends the `streak_broken` notification) — NOT
whenever the new count is merely less than the previous one: a drop from
2 to 1 is not flagged (see the counterexample). -/
theorem C5_streak_broken_flag (s : Store) (u r : String) (today : ℤ) :
    (Completion.recalculateStreak s u r today).1.streakBroken =
        (decide (0 < prevCount s u r) && (Completion.calculateStreak s u r today == 0)) ∧
      (Completion.recalculateStreak s u r today).2.notifs =
        s.notifs ++
          (match (if decide (prevCount s u r < Completion.calculateStreak s u r today) &&
              isMilestone (Completion.calculateStreak s u r today) then
              getMilestone (Completion.calculateStreak s u r today) else none) with
           | some _ => [(u, "streak_milestone")]
           | none => []) ++
          (if decide (0 < prevCount s u r) &&
              (Completion.calculateStreak s u r today == 0) then
            [(u, "streak_broken")]
           else []) := by
  constructor
  · rw [recalc_fst]
  · simp only [prevCount]
    exact recalc_snd_notifs s u r today

/-- A store where the stored streak count (2) exceeds what the completion
history supports (a single completion on day 12 gives a recomputed count
of 1). -/
def storeC5 : Store :=
  { emptyStore with
    completions := [⟨"c1", "t", "u", 0, 12⟩]
    routineTasks := [("r", "t")]
    streaks := fun u2 r2 => if u2 = "u" ∧ r2 = "r" then some ⟨2, 2, some 12⟩ else none }

/-- **C5 counterexample**: with `today = 12` the recomputed count (1) is
strictly less than the stored count (2), yet `streakBroken` is false —
so "marks streakBroken whenever the new count is less than the previous"
is false as stated. -/
theorem C5_counterexample :
    Completion.calculateStreak storeC5 "u" "r" 12 < prevCount storeC5 "u" "r" ∧
      (Completion.recalculateStreak storeC5 "u" "r" 12).1.streakBroken = false := by
  decide

/-- **C4, confirmed.**  The recalculation path's `milestone` result and
bonus credit: a `bonus` transaction (for the configured milestone of the
new count) is appended if and only if the new count is strictly greater
than the stored count AND is a configured milestone threshold
(`getMilestone` returns `some` exactly on thresholds); and running the
recalculation twice in a row with unchanged completions awards nothing on
the second run — its `milestone` is `none` and the transaction log does
not grow. -/
theorem C4_milestone_award (s : Store) (u r : String) (today : ℤ) :
    ((Completion.recalculateStreak s u r today).1.milestone =
        (if decide (prevCount s u r < Completion.calculateStreak s u r today) &&
            isMilestone (Completion.calculateStreak s u r today) then
          getMilestone (Completion.calculateStreak s u r today)
        else none)) ∧
      ((Completion.recalculateStreak s u r today).2.transactions =
        s.transactions ++
          (match (if decide (prevCount s u r < Completion.calculateStreak s u r today) &&
              isMilestone (Completion.calculateStreak s u r today) then
              getMilestone (Completion.calculateStreak s u r today) else none) with
           | some m => [⟨u, m.bonus, .bonus,
               Completion.milestoneDescription m (Completion.routineName s r)⟩]
           | none => [])) ∧
      ((Completion.recalculateStreak
          (Completion.recalculateStreak s u r today).2 u r today).1.milestone = none) ∧
      ((Completion.recalculateStreak
          (Completion.recalculateStreak s u r today).2 u r today).2.transactions =
        (Completion.recalculateStreak s u r today).2.transactions) := by
  have hc := recalc_snd_completions s u r today
  have hr := recalc_snd_routineTasks s u r today
  have hcalc : Completion.calculateStreak (Completion.recalculateStreak s u r today).2 u r today =
      Completion.calculateStreak s u r today :=
    Completion.calculateStreak_congr _ s u r today hc hr
  have hprev : (((Completion.recalculateStreak s u r today).2.streaks u r).getD
      ⟨0, 0, none⟩).currentCount = Completion.calculateStreak s u r today := by
    rw [recalc_snd_streaks_self s u r today]
    rfl
  refine ⟨?_, ?_, ?_, ?_⟩
  · rw [recalc_fst]
  · simp only [prevCount]
    exact recalc_snd_transactions s u r today
  · rw [recalc_fst]
    simp only [prevCount, hprev, hcalc]
    simp
  · rw [recalc_snd_transactions (Completion.recalculateStreak s u r today).2 u r today]
    rw [hprev, hcalc]
    simp

namespace Balance

lemma add_snd_tasks (s : Store) (u : String) (a : ℤ) (k : TxnKind) (d : String)
    (ha : 0 < a) (hk : k ∈ creditKinds) :
    (add s u a k d).2.tasks = s.tasks := by
  rw [add_pos s u a k d ha hk]
  show (ensure s u).tasks = s.tasks
  exact ensure_tasks s u

lemma add_snd_balances_self (s : Store) (u : String) (a : ℤ) (k : TxnKind) (d : String)
    (ha : 0 < a) (hk : k ∈ creditKinds) :
    (add s u a k d).2.balances u = some ((s.balances u).getD 0 + a) := by
  rw [add_pos s u a k d ha hk]
  show (appendTxn (applyDelta (ensure s u) u a) _).balances u = _
  rw [appendTxn_balances, applyDelta_balances_self, ensure_balances_self]
  rfl

end Balance

lemma find?_id_append (l : List CompletionRec) (c : CompletionRec) (id0 : String)
    (hc : c.id = id0) (h : ∀ x ∈ l, x.id ≠ id0) :
    (l ++ [c]).find? (fun x => x.id == id0) = some c := by
  induction l with
  | nil => simp [hc]
  | cons a as ih =>
    have ha : (a.id == id0) = false := by
      simpa using h a (List.mem_cons_self a as)
    rw [List.cons_append, List.find?_cons_of_neg _ (by simp [ha])]
    exact ih (fun x hx => h x (List.mem_cons_of_mem a hx))

lemma filter_id_append (l : List CompletionRec) (c : CompletionRec) (id0 : String)
    (hc : c.id = id0) (h : ∀ x ∈ l, x.id ≠ id0) :
    (l ++ [c]).filter (fun x => x.id != id0) = l := by
  rw [List.filter_append]
  have h1 : l.filter (fun x => x.id != id0) = l :=
    List.filter_eq_self.mpr (fun a ha => by simpa using h a ha)
  simp [h1, hc]

/-- `Completion.create` on an existing task of positive value: the
completion row is inserted, the earnings credited, the notification
emitted. -/
lemma create_eq (s : Store) (taskId u : String) (today now : ℤ) (newId : String) (t : TaskRec)
    (htask : s.tasks taskId = some t) (hval : 0 < t.dollarValue) :
    Completion.create s taskId u today now newId =
      (⟨newId, taskId, u, now, today⟩,
       Completion.createNotif
         (Balance.add { s with completions := s.completions ++ [⟨newId, taskId, u, now, today⟩] }
            u t.dollarValue .earned ("Completed: " ++ t.name)).2
         u "task_complete") := by
  unfold Completion.create Completion.updateBalance Completion.taskCompletionNotif
  dsimp only
  rw [htask]
  dsimp only
  rw [if_neg (not_le.mpr hval)]
  rw [Balance.add_snd_tasks _ u t.dollarValue .earned _ hval (by decide)]
  dsimp only
  rw [htask]

lemma completeTask_ok (s : Store) (taskId u hh : String) (today now : ℤ) (newId : String)
    (t : TaskRec) (htask : s.tasks taskId = some t) (hhh : t.householdId = hh)
    (hnc : Completion.isCompleted s taskId u today = false) :
    completeTask s taskId u hh today now newId =
      (.ok (Completion.create s taskId u today now newId).1,
       Balance.ensure (Completion.create s taskId u today now newId).2 u) := by
  unfold completeTask
  rw [htask]
  dsimp only
  rw [if_neg (not_not_intro hhh)]
  have hnc2 : ¬ (Completion.isCompleted s taskId u today = true) := by
    rw [hnc]
    simp
  rw [if_neg hnc2]
  rfl

/-- **C2, confirmed.**  Completing a positive-value task and undoing the
resulting completion within the 5-minute window: the route call succeeds
with the new completion, the undo succeeds, the completions table returns
to its pre-Complete contents, the observed balance returns to its
pre-Complete value, and the transaction log has grown by exactly two
entries — one `earned` of the task's value and one compensating
`adjustment` of the opposite amount. -/
theorem C2_complete_undo_roundtrip (s : Store) (taskId u hh newId : String) (t : TaskRec)
    (today now1 now2 : ℤ)
    (htask : s.tasks taskId = some t) (hhh : t.householdId = hh)
    (hval : 0 < t.dollarValue)
    (hnc : Completion.isCompleted s taskId u today = false)
    (hfresh : ∀ x ∈ s.completions, x.id ≠ newId)
    (hwin : now2 - now1 ≤ 1000 * 60 * 5) :
    (completeTask s taskId u hh today now1 newId).1 =
        .ok ⟨newId, taskId, u, now1, today⟩ ∧
      (Completion.undo (completeTask s taskId u hh today now1 newId).2 newId now2).1 = .ok () ∧
      (Completion.undo (completeTask s taskId u hh today now1 newId).2 newId now2).2.completions =
        s.completions ∧
      ((Completion.undo (completeTask s taskId u hh today now1 newId).2 newId
          now2).2.balances u).getD 0 = (s.balances u).getD 0 ∧
      (Completion.undo (completeTask s taskId u hh today now1 newId).2 newId now2).2.transactions =
        s.transactions ++
          [⟨u, t.dollarValue, .earned, "Completed: " ++ t.name⟩,
           ⟨u, -t.dollarValue, .adjustment, "Undone: " ++ t.name⟩] := by
  have hroute := completeTask_ok s taskId u hh today now1 newId t htask hhh hnc
  have hcr := create_eq s taskId u today now1 newId t htask hval
  have hs1c : (Completion.create s taskId u today now1 newId).2.completions =
      s.completions ++ [⟨newId, taskId, u, now1, today⟩] := by
    rw [hcr]
    show (Balance.add _ u t.dollarValue .earned _).2.completions = _
    rw [Balance.add_snd_completions _ u t.dollarValue .earned _ hval (by decide)]
  have hs1t : (Completion.create s taskId u today now1 newId).2.transactions =
      s.transactions ++ [⟨u, t.dollarValue, .earned, "Completed: " ++ t.name⟩] := by
    rw [hcr]
    show (Balance.add _ u t.dollarValue .earned _).2.transactions = _
    rw [Balance.add_snd_transactions _ u t.dollarValue .earned _ hval (by decide)]
  have hs1tasks : (Completion.create s taskId u today now1 newId).2.tasks = s.tasks := by
    rw [hcr]
    show (Balance.add _ u t.dollarValue .earned _).2.tasks = _
    rw [Balance.add_snd_tasks _ u t.dollarValue .earned _ hval (by decide)]
  have hs1b : (Completion.create s taskId u today now1 newId).2.balances u =
      some ((s.balances u).getD 0 + t.dollarValue) := by
    rw [hcr]
    show (Balance.add _ u t.dollarValue .earned _).2.balances u = _
    rw [Balance.add_snd_balances_self _ u t.dollarValue .earned _ hval (by decide)]
  have hens : Balance.ensure (Completion.create s taskId u today now1 newId).2 u =
      (Completion.create s taskId u today now1 newId).2 :=
    Balance.ensure_of_isSome _ u (by rw [hs1b]; rfl)
  have hfind : Completion.findById (Completion.create s taskId u today now1 newId).2 newId =
      some ⟨newId, taskId, u, now1, today⟩ := by
    unfold Completion.findById
    rw [hs1c]
    exact find?_id_append s.completions ⟨newId, taskId, u, now1, today⟩ newId rfl hfresh
  have hnotexp : ¬ (1000 * 60 * Completion.UNDO_WINDOW_MINUTES <
      now2 - (⟨newId, taskId, u, now1, today⟩ : CompletionRec).completedAt) := by
    simp only [Completion.UNDO_WINDOW_MINUTES]
    show ¬ (1000 * 60 * 5 < now2 - now1)
    omega
  have htasks2 : (Completion.create s taskId u today now1 newId).2.tasks
      (⟨newId, taskId, u, now1, today⟩ : CompletionRec).taskId = some t := by
    rw [hs1tasks]
    exact htask
  have hundo : Completion.undo (Completion.create s taskId u today now1 newId).2 newId now2 =
      (.ok (),
       { (Balance.reverse (Completion.create s taskId u today now1 newId).2 u t.dollarValue
            ("Undone: " ++ t.name)).2 with
         completions := (Balance.reverse (Completion.create s taskId u today now1 newId).2 u
            t.dollarValue ("Undone: " ++ t.name)).2.completions.filter
              (fun c2 => c2.id != newId) }) := by
    unfold Completion.undo
    rw [hfind]
    dsimp only
    rw [if_neg hnotexp, htasks2]
    dsimp only
    rw [if_pos hval]
  have hrevc : (Balance.reverse (Completion.create s taskId u today now1 newId).2 u t.dollarValue
      ("Undone: " ++ t.name)).2.completions =
      s.completions ++ [⟨newId, taskId, u, now1, today⟩] := by
    rw [Balance.reverse_eq]
    dsimp only
    rw [Balance.ensure_completions]
    exact hs1c
  refine ⟨?_, ?_, ?_, ?_, ?_⟩
  · rw [hroute, hcr]
  · rw [hroute]
    dsimp only
    rw [hens, hundo]
  · rw [hroute]
    dsimp only
    rw [hens, hundo]
    dsimp only
    rw [hrevc]
    exact filter_id_append s.completions ⟨newId, taskId, u, now1, today⟩ newId rfl hfresh
  · rw [hroute]
    dsimp only
    rw [hens, hundo]
    dsimp only
    rw [Balance.reverse_eq]
    dsimp only
    rw [Balance.ensure_balances_self, Balance.appendTxn_balances,
      Balance.applyDelta_balances_self, hs1b]
    simp only [Option.map_some', Option.getD_some]
    omega
  · rw [hroute]
    dsimp only
    rw [hens, hundo]
    dsimp only
    rw [Balance.reverse_eq]
    dsimp only
    rw [Balance.ensure_transactions, Balance.appendTxn_transactions,
      Balance.applyDelta_transactions, hs1t]
    simp

/-- A store holding one $0.50 task and nothing else. -/
def storeC2 : Store :=
  { emptyStore with tasks := fun id => if id = "t" then some ⟨"h", "Dishes", 50⟩ else none }

/-- **C2 witness**: complete the $0.50 task at time 0 and undo at one
minute; the balance returns to 0 and the log gains the earned/adjustment
pair. -/
theorem C2_witness :
    (completeTask storeC2 "t" "u" "h" 12 0 "c1").1 = .ok ⟨"c1", "t", "u", 0, 12⟩ ∧
      (Completion.undo (completeTask storeC2 "t" "u" "h" 12 0 "c1").2 "c1" 60000).1 = .ok () ∧
      (Completion.undo (completeTask storeC2 "t" "u" "h" 12 0 "c1").2 "c1"
        60000).2.completions = storeC2.completions ∧
      ((Completion.undo (completeTask storeC2 "t" "u" "h" 12 0 "c1").2 "c1"
        60000).2.balances "u").getD 0 = (storeC2.balances "u").getD 0 ∧
      (Completion.undo (completeTask storeC2 "t" "u" "h" 12 0 "c1").2 "c1"
        60000).2.transactions = storeC2.transactions ++
          [⟨"u", 50, .earned, "Completed: " ++ "Dishes"⟩,
           ⟨"u", -50, .adjustment, "Undone: " ++ "Dishes"⟩] :=
  C2_complete_undo_roundtrip storeC2 "t" "u" "h" "c1" ⟨"h", "Dishes", 50⟩ 12 0 60000
    (by decide) rfl (by decide) (by decide)
    (by intro x hx; simp [storeC2, emptyStore] at hx) (by decide)

lemma mem_insertDateDesc (x a : ℤ) (l : List ℤ) :
    a ∈ Completion.insertDateDesc x l ↔ a = x ∨ a ∈ l := by
  induction l with
  | nil => simp [Completion.insertDateDesc]
  | cons y ys ih =>
    rw [Completion.insertDateDesc]
    by_cases hxy : x = y
    · subst hxy
      simp [List.mem_cons]
    · rw [if_neg hxy]
      by_cases hlt : y < x
      · rw [if_pos hlt]
        simp [List.mem_cons]
      · rw [if_neg hlt]
        simp only [List.mem_cons, ih]
        tauto

lemma pairwise_insertDateDesc (x : ℤ) (l : List ℤ)
    (h : l.Pairwise (fun a b => b < a)) :
    (Completion.insertDateDesc x l).Pairwise (fun a b => b < a) := by
  induction l with
  | nil => simp [Completion.insertDateDesc]
  | cons y ys ih =>
    rw [Completion.insertDateDesc]
    rcases List.pairwise_cons.mp h with ⟨hy, hys⟩
    by_cases hxy : x = y
    · subst hxy
      rw [if_pos rfl]
      exact h
    · rw [if_neg hxy]
      by_cases hlt : y < x
      · rw [if_pos hlt]
        refine List.pairwise_cons.mpr ⟨?_, h⟩
        intro b hb
        rcases List.mem_cons.mp hb with hb | hb
        · omega
        · have := hy b hb
          omega
      · rw [if_neg hlt]
        refine List.pairwise_cons.mpr ⟨?_, ih hys⟩
        intro b hb
        rcases (mem_insertDateDesc x b ys).mp hb with hb | hb
        · subst hb
          omega
        · exact hy b hb

lemma pairwise_sortDatesDesc (l : List ℤ) :
    (Completion.sortDatesDesc l).Pairwise (fun a b => b < a) := by
  unfold Completion.sortDatesDesc
  induction l with
  | nil => simp
  | cons x xs ih =>
    rw [List.foldr_cons]
    exact pairwise_insertDateDesc x _ ih

lemma pairwise_completionDates (s : Store) (u r : String) :
    (Completion.completionDates s u r).Pairwise (fun a b => b < a) := by
  unfold Completion.completionDates
  exact pairwise_sortDatesDesc _

lemma countRun_mem (l : List ℤ) (e : ℤ) (hp : l.Pairwise (fun a b => b < a))
    (hb : ∀ d ∈ l, d ≤ e) :
    ∀ i : ℕ, i < Completion.countRun e l → (e - i) ∈ l := by
  induction l generalizing e with
  | nil =>
    intro i hi
    simp [Completion.countRun] at hi
  | cons d rest ih =>
    intro i hi
    rw [Completion.countRun] at hi
    by_cases hde : d = e
    · subst hde
      rw [if_pos rfl] at hi
      cases i with
      | zero => simp
      | succ j =>
        have hj : j < Completion.countRun (d - 1) rest := by omega
        rcases List.pairwise_cons.mp hp with ⟨hhead, htail⟩
        have hb2 : ∀ x ∈ rest, x ≤ d - 1 := by
          intro x hx
          have := hhead x hx
          omega
        have hmem := ih (d - 1) htail hb2 j hj
        have hcast : (d - ((j + 1 : ℕ) : ℤ)) = (d - 1) - (j : ℤ) := by
          push_cast
          ring
        rw [hcast]
        exact List.mem_cons_of_mem d hmem
    · rw [if_neg hde] at hi
      by_cases hlt : d < e
      · rw [if_pos hlt] at hi
        omega
      · exact absurd (le_antisymm (hb d (List.mem_cons_self d rest)) (not_lt.mp hlt)) hde

lemma countRun_not_mem (l : List ℤ) (e : ℤ) (hp : l.Pairwise (fun a b => b < a))
    (hb : ∀ d ∈ l, d ≤ e) :
    (e - (Completion.countRun e l : ℤ)) ∉ l := by
  induction l generalizing e with
  | nil => simp
  | cons d rest ih =>
    rw [Completion.countRun]
    by_cases hde : d = e
    · subst hde
      rw [if_pos rfl]
      rcases List.pairwise_cons.mp hp with ⟨hhead, htail⟩
      have hb2 : ∀ x ∈ rest, x ≤ d - 1 := by
        intro x hx
        have := hhead x hx
        omega
      have hnm := ih (d - 1) htail hb2
      intro hmem
      rcases List.mem_cons.mp hmem with heq | hmem2
      · omega
      · have hcast : (d - ((Completion.countRun (d - 1) rest + 1 : ℕ) : ℤ)) =
            (d - 1) - (Completion.countRun (d - 1) rest : ℤ) := by
          push_cast
          ring
        rw [hcast] at hmem2
        exact hnm hmem2
    · rw [if_neg hde]
      by_cases hlt : d < e
      · rw [if_pos hlt]
        rcases List.pairwise_cons.mp hp with ⟨hhead, _⟩
        intro hmem
        rcases List.mem_cons.mp hmem with heq | hmem2
        · omega
        · have := hhead _ hmem2
          omega
      · exact absurd (le_antisymm (hb d (List.mem_cons_self d rest)) (not_lt.mp hlt)) hde

/-- **C7, confirmed.**  The from-scratch streak recomputation over the
distinct completion dates (newest first) of the user's completions on the
routine's tasks: it scans an empty history to 0, returns 0 when the most
recent date `d0` is neither today nor yesterday, and otherwise returns a
positive count `n` that is exactly the length of the consecutive run of
calendar days ending at `d0`: every one of the `n` days `d0, d0-1, ...,
d0-(n-1)` has a completion, and day `d0-n` has none. -/
theorem C7_streak_recompute (s : Store) (u r : String) (today d0 : ℤ) (tl : List ℤ)
    (hd : Completion.completionDates s u r = d0 :: tl) :
    (Completion.calcDates [] today = 0) ∧
      (d0 ≠ today ∧ d0 ≠ today - 1 → Completion.calculateStreak s u r today = 0) ∧
      ((d0 = today ∨ d0 = today - 1) →
        0 < Completion.calculateStreak s u r today ∧
        (∀ i : ℕ, i < Completion.calculateStreak s u r today →
          (d0 - i) ∈ Completion.completionDates s u r) ∧
        (d0 - (Completion.calculateStreak s u r today : ℤ)) ∉
          Completion.completionDates s u r) := by
  have hpair : (d0 :: tl).Pairwise (fun a b => b < a) := by
    rw [← hd]
    exact pairwise_completionDates s u r
  have hb : ∀ x ∈ d0 :: tl, x ≤ d0 := by
    intro x hx
    rcases List.mem_cons.mp hx with hx | hx
    · omega
    · have := (List.pairwise_cons.mp hpair).1 x hx
      omega
  have hcalc : Completion.calculateStreak s u r today = Completion.calcDates (d0 :: tl) today := by
    unfold Completion.calculateStreak
    rw [hd]
  refine ⟨rfl, ?_, ?_⟩
  · intro hinv
    rw [hcalc]
    unfold Completion.calcDates
    dsimp only
    rw [if_pos hinv]
  · intro hvalid
    have hcond : ¬ (d0 ≠ today ∧ d0 ≠ today - 1) := by
      rcases hvalid with h | h <;> simp [h]
    have hrun : Completion.calculateStreak s u r today = Completion.countRun d0 (d0 :: tl) := by
      rw [hcalc]
      unfold Completion.calcDates
      dsimp only
      rw [if_neg hcond]
    refine ⟨?_, ?_, ?_⟩
    · rw [hrun, Completion.countRun, if_pos rfl]
      omega
    · intro i hi
      rw [hrun] at hi
      rw [hd]
      exact countRun_mem (d0 :: tl) d0 hpair hb i hi
    · rw [hrun, hd]
      exact countRun_not_mem (d0 :: tl) d0 hpair hb

/-- A store with completions on days 10, 11 and 12 of the routine's task. -/
def storeC7 : Store :=
  { emptyStore with
    completions := [⟨"c1", "t", "u", 0, 10⟩, ⟨"c2", "t", "u", 0, 11⟩, ⟨"c3", "t", "u", 0, 12⟩]
    routineTasks := [("r", "t")] }

/-- **C7 witness**: with today = 12 the recomputed streak is 3; day 10
(= 12 - 2) is in the history and day 9 (= 12 - 3) is not. -/
theorem C7_witness :
    Completion.calculateStreak storeC7 "u" "r" 12 = 3 ∧
      0 < Completion.calculateStreak storeC7 "u" "r" 12 ∧
      ((12:ℤ) - ((2:ℕ) : ℤ)) ∈ Completion.completionDates storeC7 "u" "r" ∧
      ((12:ℤ) - (Completion.calculateStreak storeC7 "u" "r" 12 : ℤ)) ∉
        Completion.completionDates storeC7 "u" "r" := by
  have h := C7_streak_recompute storeC7 "u" "r" 12 12 [11, 10] (by decide)
  have hv := h.2.2 (Or.inl rfl)
  exact ⟨by decide, hv.1, hv.2.1 2 (by decide), hv.2.2⟩
